import Mathlib

/-!
# depthai_bridge: ImuConverter and DisparityConverter

A shallow embedding of `src/depthai_bridge/src/ImuConverter.cpp` and
`src/depthai_bridge/src/DisparityConverter.cpp`.

Conventions of the embedding

* Instants of `std::chrono::steady_clock` are integers, in nanoseconds.
* `ros::Time` is the pair `sec`, `nsec` of the ROS library, with its class
  invariant (`sec` fits 32 bits, `nsec < 10^9`).
* `uint64_t` arithmetic is taken modulo `2^64`; `int64_t` values are read in
  two's complement (`toInt64`).
* `float` and `double` values that are only copied are rationals (a finite
  float converts to double without change); the arithmetic of
  `DisparityConverter` is exact rational arithmetic.
* A result `none` stands for a call that does not complete: an exception of
  the ROS library, or behaviour the language leaves undefined.
-/

namespace dai.ros

/-! ## Machine integers -/

/-- The modulus of `uint32_t` (`unsigned int`). -/
def U32 : Nat := 4294967296

/-- Reads an integer as `int64_t`, in two's complement. -/
def toInt64 (x : Int) : Int := (x + 9223372036854775808) % 18446744073709551616 - 9223372036854775808

/-- Reads an integer as `uint64_t`. -/
def toUInt64 (x : Int) : Nat := (x % 18446744073709551616).toNat

/-! ## ros::Time -/

/-- The class `ros::Time`: `uint32_t sec, nsec`, normalised. -/
structure Time where
  sec : Nat
  nsec : Nat
  sec_lt : sec < 4294967296
  nsec_lt : nsec < 1000000000

/-- The method `ros::Time::toNSec`: `(uint64_t)sec * 1000000000ull + (uint64_t)nsec`;
with `sec < 2^32` and `nsec < 10^9` the sum is below `2^64`. -/
def Time.toNSec (t : Time) : Nat := t.sec * 1000000000 + t.nsec

/-- The method `ros::Time::fromNSec(uint64_t t)`: `normalizeSecNSec` throws
`std::runtime_error` when the seconds exceed `UINT32_MAX`, and the object is
left as it was. -/
def Time.fromNSec (t : Nat) : Option Time :=
  if h : t / 1000000000 < 4294967296 then
    some ⟨t / 1000000000, t % 1000000000, h, Nat.mod_lt _ (by decide)⟩
  else none

/-! ## The time base shared by the converters -/

/-- The members of a converter that `updateRosBaseTime` reads and writes:
`_steadyBaseTime`, `_rosBaseTime`, `_totalNsChange`. -/
structure TimeBase where
  steadyBaseTime : Int
  rosBaseTime : Time
  totalNsChange : Int

/-- The constant `ZERO_TIME_DELTA_NS { 100 }` of the converter headers. -/
def ZERO_TIME_DELTA_NS : Int := 100

/-- The message sent to `DEPTHAI_ROS_DEBUG_STREAM`: the diff, the total
change and the new base time. -/
structure BaseTimeChange where
  diff : Int
  totalNsChange : Int
  newTimeNs : Nat
deriving DecidableEq, Repr

/-- What the constructors do to the time base: `_steadyBaseTime` is
`steady_clock::now()`, `_rosBaseTime` is `ros::Time::now()`, and
`_totalNsChange{ 0 }`. -/
def TimeBase.init (rosNow : Time) (steadyNow : Int) : TimeBase :=
  { steadyBaseTime := steadyNow, rosBaseTime := rosNow, totalNsChange := 0 }

/-- The body of `updateRosBaseTime` (the same text in `ImuConverter.cpp`
and `DisparityConverter.cpp`), given the two clock readings it takes.
`expectedOffset` is the `int64_t` count of nanoseconds; the argument of
`fromNSec` is a `uint64_t` difference; `diff` is the `uint64_t` difference
read as `int64_t`; `_totalNsChange += diff` is taken in two's complement;
`::abs(diff)` is the absolute value of the `int64_t`. The second component is
the message sent when the test `::abs(diff) > ZERO_TIME_DELTA_NS` holds.
`none`: `fromNSec` threw, nothing was written. -/
def TimeBase.updateRosBaseTime (tb : TimeBase) (currentRosTime : Time) (currentSteadyTime : Int) :
    Option (TimeBase × Option BaseTimeChange) :=
  let expectedOffset : Int := toInt64 (currentSteadyTime - tb.steadyBaseTime)
  let previousBaseTimeNs : Nat := tb.rosBaseTime.toNSec
  match Time.fromNSec (toUInt64 ((currentRosTime.toNSec : Int) - expectedOffset)) with
  | none => none
  | some rosBaseTime =>
    let newBaseTimeNs : Nat := rosBaseTime.toNSec
    let diff : Int := toInt64 (toUInt64 ((newBaseTimeNs : Int) - (previousBaseTimeNs : Int)))
    let totalNsChange : Int := toInt64 (tb.totalNsChange + diff)
    let tb1 : TimeBase :=
      { steadyBaseTime := tb.steadyBaseTime, rosBaseTime := rosBaseTime, totalNsChange := totalNsChange }
    if |diff| > ZERO_TIME_DELTA_NS then
      some (tb1, some { diff := diff, totalNsChange := totalNsChange, newTimeNs := rosBaseTime.toNSec })
    else
      some (tb1, none)

/-- Modelled from the spec: `getFrameTime` of `depthaiUtility.hpp` (the
header is not among the sources), the operation `translate`: it "returns
`referenceAnchor + (monotonicInstant − monotonicAnchor)`", a pure linear
mapping using the current anchor. The result is in nanoseconds on the
reference clock. -/
def getFrameTime (rosBaseTime : Time) (steadyBaseTime : Int) (currTimePoint : Int) : Int :=
  (rosBaseTime.toNSec : Int) + (currTimePoint - steadyBaseTime)

/-! ## Messages -/

/-- The message `std_msgs/Header`; `stamp` in nanoseconds. -/
structure Header where
  seq : Nat
  stamp : Int
  frame_id : String
deriving DecidableEq, Repr

/-- The message `geometry_msgs/Vector3`. -/
structure Vector3 where
  x : ℚ
  y : ℚ
  z : ℚ
deriving DecidableEq, Repr

/-- The message `geometry_msgs/Quaternion`. -/
structure Quaternion where
  x : ℚ
  y : ℚ
  z : ℚ
  w : ℚ
deriving DecidableEq, Repr

/-- The message `sensor_msgs/Imu`; a covariance is the `boost::array<double, 9>`
of a row-major 3x3 matrix. -/
structure Imu where
  header : Header
  orientation : Quaternion
  orientation_covariance : List ℚ
  angular_velocity : Vector3
  angular_velocity_covariance : List ℚ
  linear_acceleration : Vector3
  linear_acceleration_covariance : List ℚ
deriving DecidableEq, Repr

/-- The message `sensor_msgs/MagneticField`. -/
structure MagneticField where
  header : Header
  magnetic_field : Vector3
  magnetic_field_covariance : List ℚ
deriving DecidableEq, Repr

/-- The message `depthai_ros_msgs/ImuWithMagneticField`. -/
structure ImuWithMagneticField where
  header : Header
  imu : Imu
  field : MagneticField
deriving DecidableEq, Repr

/-- A default-constructed header. -/
def Header.zero : Header := { seq := 0, stamp := 0, frame_id := "" }

/-- A default-constructed `ImuMsgs::Imu msg;`: every number is zero. -/
def Imu.zero : Imu :=
  { header := Header.zero
    orientation := ⟨0, 0, 0, 0⟩
    orientation_covariance := [0, 0, 0, 0, 0, 0, 0, 0, 0]
    angular_velocity := ⟨0, 0, 0⟩
    angular_velocity_covariance := [0, 0, 0, 0, 0, 0, 0, 0, 0]
    linear_acceleration := ⟨0, 0, 0⟩
    linear_acceleration_covariance := [0, 0, 0, 0, 0, 0, 0, 0, 0] }

/-- A default-constructed `depthai_ros_msgs::ImuWithMagneticField msg;`. -/
def ImuWithMagneticField.zero : ImuWithMagneticField :=
  { header := Header.zero
    imu := Imu.zero
    field :=
      { header := Header.zero
        magnetic_field := ⟨0, 0, 0⟩
        magnetic_field_covariance := [0, 0, 0, 0, 0, 0, 0, 0, 0] } }

/-! ## IMU reports -/

/-- The struct `dai::IMUReportAccelerometer`. -/
structure IMUReportAccelerometer where
  x : ℚ
  y : ℚ
  z : ℚ
  timestamp : Int
deriving DecidableEq, Repr

/-- The struct `dai::IMUReportGyroscope`. -/
structure IMUReportGyroscope where
  x : ℚ
  y : ℚ
  z : ℚ
  timestamp : Int
deriving DecidableEq, Repr

/-- The struct `dai::IMUReportRotationVectorWAcc`. -/
structure IMUReportRotationVectorWAcc where
  i : ℚ
  j : ℚ
  k : ℚ
  real : ℚ
  timestamp : Int
deriving DecidableEq, Repr

/-- The struct `dai::IMUReportMagneticField`. -/
structure IMUReportMagneticField where
  x : ℚ
  y : ℚ
  z : ℚ
  timestamp : Int
deriving DecidableEq, Repr

/-- The struct `dai::IMUPacket`. -/
structure IMUPacket where
  acceleroMeter : IMUReportAccelerometer
  gyroscope : IMUReportGyroscope
  magneticField : IMUReportMagneticField
  rotationVector : IMUReportRotationVectorWAcc
deriving DecidableEq, Repr

/-- The message `dai::IMUData`. -/
structure IMUData where
  packets : List IMUPacket
deriving DecidableEq, Repr

/-! ## ImuConverter -/

/-- Modelled from the spec: the enumeration `ImuSyncMethod` of
`ImuConverter.hpp` (the header is not among the sources), the `SyncPolicy`
"enumerated variant: `Copy` ... vs `LinearInterpolate`". -/
inductive ImuSyncMethod where
  | COPY
  | LINEAR_INTERPOLATE
deriving DecidableEq, Repr

/-- The members of `ImuConverter` that its constructor sets. -/
structure ImuConverter where
  frameName : String
  syncMode : ImuSyncMethod
  linear_accel_cov : ℚ
  angular_velocity_cov : ℚ
  rotation_cov : ℚ
  magnetic_field_cov : ℚ
  enable_rotation : Bool
  sequenceNum : Nat
  timeBase : TimeBase

/-- The constructor `ImuConverter::ImuConverter`, given the two clock
readings it takes. -/
def ImuConverter.construct (frameName : String) (syncMode : ImuSyncMethod)
    (linear_accel_cov angular_velocity_cov rotation_cov magnetic_field_cov : ℚ)
    (enable_rotation : Bool) (rosNow : Time) (steadyNow : Int) : ImuConverter :=
  { frameName := frameName
    syncMode := syncMode
    linear_accel_cov := linear_accel_cov
    angular_velocity_cov := angular_velocity_cov
    rotation_cov := rotation_cov
    magnetic_field_cov := magnetic_field_cov
    enable_rotation := enable_rotation
    sequenceNum := 0
    timeBase := TimeBase.init rosNow steadyNow }

/-- The method `ImuConverter::updateRosBaseTime`. -/
def ImuConverter.updateRosBaseTime (c : ImuConverter) (currentRosTime : Time) (currentSteadyTime : Int) :
    Option (ImuConverter × Option BaseTimeChange) :=
  match c.timeBase.updateRosBaseTime currentRosTime currentSteadyTime with
  | none => none
  | some (tb, ev) => some ({ c with timeBase := tb }, ev)

/-- The overload `fillImuMsg(dai::IMUReportAccelerometer, ImuMsgs::Imu&)`. -/
def ImuConverter.fillImuMsgAccelerometer (c : ImuConverter) (report : IMUReportAccelerometer) (msg : Imu) : Imu :=
  { msg with
    linear_acceleration := { x := report.x, y := report.y, z := report.z }
    linear_acceleration_covariance :=
      [c.linear_accel_cov, 0, 0, 0, c.linear_accel_cov, 0, 0, 0, c.linear_accel_cov] }

/-- The overload `fillImuMsg(dai::IMUReportGyroscope, ImuMsgs::Imu&)`. -/
def ImuConverter.fillImuMsgGyroscope (c : ImuConverter) (report : IMUReportGyroscope) (msg : Imu) : Imu :=
  { msg with
    angular_velocity := { x := report.x, y := report.y, z := report.z }
    angular_velocity_covariance :=
      [c.angular_velocity_cov, 0, 0, 0, c.angular_velocity_cov, 0, 0, 0, c.angular_velocity_cov] }

/-- The overload `fillImuMsg(dai::IMUReportRotationVectorWAcc, ImuMsgs::Imu&)`. -/
def ImuConverter.fillImuMsgRotationVectorWAcc (c : ImuConverter) (report : IMUReportRotationVectorWAcc)
    (msg : Imu) : Imu :=
  if c.enable_rotation then
    { msg with
      orientation := { x := report.i, y := report.j, z := report.k, w := report.real }
      orientation_covariance := [c.rotation_cov, 0, 0, 0, c.rotation_cov, 0, 0, 0, c.rotation_cov] }
  else
    { msg with
      orientation := { x := 0, y := 0, z := 0, w := 1 }
      orientation_covariance := [-1, 0, 0, 0, 0, 0, 0, 0, 0] }

/-- The overload `fillImuMsg(dai::IMUReportMagneticField, ImuMsgs::Imu&)`: `return;`. -/
def ImuConverter.fillImuMsgMagneticField (_c : ImuConverter) (_report : IMUReportMagneticField) (msg : Imu) : Imu :=
  msg

/-- The overload `fillImuMsg(dai::IMUReportAccelerometer, depthai_ros_msgs::ImuWithMagneticField&)`. -/
def ImuConverter.fillImuMsgAccelerometerDai (c : ImuConverter) (report : IMUReportAccelerometer)
    (msg : ImuWithMagneticField) : ImuWithMagneticField :=
  { msg with imu := c.fillImuMsgAccelerometer report msg.imu }

/-- The overload `fillImuMsg(dai::IMUReportGyroscope, depthai_ros_msgs::ImuWithMagneticField&)`. -/
def ImuConverter.fillImuMsgGyroscopeDai (c : ImuConverter) (report : IMUReportGyroscope)
    (msg : ImuWithMagneticField) : ImuWithMagneticField :=
  { msg with imu := c.fillImuMsgGyroscope report msg.imu }

/-- The overload `fillImuMsg(dai::IMUReportRotationVectorWAcc, depthai_ros_msgs::ImuWithMagneticField&)`. -/
def ImuConverter.fillImuMsgRotationVectorWAccDai (c : ImuConverter) (report : IMUReportRotationVectorWAcc)
    (msg : ImuWithMagneticField) : ImuWithMagneticField :=
  { msg with imu := c.fillImuMsgRotationVectorWAcc report msg.imu }

/-- The overload `fillImuMsg(dai::IMUReportMagneticField, depthai_ros_msgs::ImuWithMagneticField&)`. -/
def ImuConverter.fillImuMsgMagneticFieldDai (c : ImuConverter) (report : IMUReportMagneticField)
    (msg : ImuWithMagneticField) : ImuWithMagneticField :=
  { msg with
    field :=
      { msg.field with
        magnetic_field := { x := report.x, y := report.y, z := report.z }
        magnetic_field_covariance :=
          [c.magnetic_field_cov, 0, 0, 0, c.magnetic_field_cov, 0, 0, 0, c.magnetic_field_cov] } }

/-- Modelled from the spec: the member template `CreateUnitMessage` of
`ImuConverter.hpp` (the header is not among the sources), on `ImuMsgs::Imu`:
the record is "populated with that accelerometer sample and the ... sample of
each other kind", by the overloads of `fillImuMsg`; the frame identifier is
"copied verbatim into every emitted record's header"; the stamp is
`translate` of the "originating device timestamp". -/
def ImuConverter.CreateUnitMessage (c : ImuConverter) (first : IMUReportAccelerometer)
    (second : IMUReportGyroscope) (third : IMUReportRotationVectorWAcc) (fourth : IMUReportMagneticField)
    (msg : Imu) (timestamp : Int) : Imu :=
  let m1 := c.fillImuMsgAccelerometer first msg
  let m2 := c.fillImuMsgGyroscope second m1
  let m3 := c.fillImuMsgRotationVectorWAcc third m2
  let m4 := c.fillImuMsgMagneticField fourth m3
  { m4 with
    header :=
      { m4.header with
        frame_id := c.frameName
        stamp := getFrameTime c.timeBase.rosBaseTime c.timeBase.steadyBaseTime timestamp } }

/-- Modelled from the spec: the member template `CreateUnitMessage` of
`ImuConverter.hpp` (the header is not among the sources), on
`depthai_ros_msgs::ImuWithMagneticField`; as `ImuConverter.CreateUnitMessage`. -/
def ImuConverter.CreateUnitMessageDai (c : ImuConverter) (first : IMUReportAccelerometer)
    (second : IMUReportGyroscope) (third : IMUReportRotationVectorWAcc) (fourth : IMUReportMagneticField)
    (msg : ImuWithMagneticField) (timestamp : Int) : ImuWithMagneticField :=
  let m1 := c.fillImuMsgAccelerometerDai first msg
  let m2 := c.fillImuMsgGyroscopeDai second m1
  let m3 := c.fillImuMsgRotationVectorWAccDai third m2
  let m4 := c.fillImuMsgMagneticFieldDai fourth m3
  { m4 with
    header :=
      { m4.header with
        frame_id := c.frameName
        stamp := getFrameTime c.timeBase.rosBaseTime c.timeBase.steadyBaseTime timestamp } }

/-- The loop `for(int i = 0; i < inData->packets.size(); ++i)` of
`ImuConverter::toRosMsg`, from index `i` on, `outImuMsgs.push_back(msg)`
being `++ [msg]`. The index is a natural number: a batch holds fewer than
`2^31` packets. -/
def ImuConverter.toRosMsgLoop (c : ImuConverter) (packets : List IMUPacket) (i : Nat) (outImuMsgs : List Imu) :
    List Imu :=
  if h : i < packets.length then
    let accel := (packets.get ⟨i, h⟩).acceleroMeter
    let gyro := (packets.get ⟨i, h⟩).gyroscope
    let rot := (packets.get ⟨i, h⟩).rotationVector
    let magn := (packets.get ⟨i, h⟩).magneticField
    let msg := c.CreateUnitMessage accel gyro rot magn Imu.zero accel.timestamp
    c.toRosMsgLoop packets (i + 1) (outImuMsgs ++ [msg])
  else outImuMsgs
termination_by packets.length - i

/-- The method `ImuConverter::toRosMsg`. The member template
`FillImuData_LinearInterpolation` of `ImuConverter.hpp` is not among the
sources: it is the argument `interpolate`. -/
def ImuConverter.toRosMsg (interpolate : List IMUPacket → List Imu → List Imu) (c : ImuConverter)
    (inData : IMUData) (outImuMsgs : List Imu) : List Imu :=
  if c.syncMode ≠ ImuSyncMethod.COPY then
    interpolate inData.packets outImuMsgs
  else
    c.toRosMsgLoop inData.packets 0 outImuMsgs

/-- The loop of `ImuConverter::toRosDaiMsg`, from index `i` on. -/
def ImuConverter.toRosDaiMsgLoop (c : ImuConverter) (packets : List IMUPacket) (i : Nat)
    (outImuMsgs : List ImuWithMagneticField) : List ImuWithMagneticField :=
  if h : i < packets.length then
    let accel := (packets.get ⟨i, h⟩).acceleroMeter
    let gyro := (packets.get ⟨i, h⟩).gyroscope
    let rot := (packets.get ⟨i, h⟩).rotationVector
    let magn := (packets.get ⟨i, h⟩).magneticField
    let msg := c.CreateUnitMessageDai accel gyro rot magn ImuWithMagneticField.zero accel.timestamp
    c.toRosDaiMsgLoop packets (i + 1) (outImuMsgs ++ [msg])
  else outImuMsgs
termination_by packets.length - i

/-- The method `ImuConverter::toRosDaiMsg`; `interpolate` as in `ImuConverter.toRosMsg`. -/
def ImuConverter.toRosDaiMsg
    (interpolate : List IMUPacket → List ImuWithMagneticField → List ImuWithMagneticField)
    (c : ImuConverter) (inData : IMUData) (outImuMsgs : List ImuWithMagneticField) :
    List ImuWithMagneticField :=
  if c.syncMode ≠ ImuSyncMethod.COPY then
    interpolate inData.packets outImuMsgs
  else
    c.toRosDaiMsgLoop inData.packets 0 outImuMsgs

/-! ## DisparityConverter -/

/-- The enumeration `dai::RawImgFrame::Type`, as far as `toRosMsg` tells its
values apart: `RAW8` and the others. -/
inductive ImgFrameType where
  | RAW8
  | RAW16
  | OTHER
deriving DecidableEq, Repr

/-- The message `dai::ImgFrame`, as far as `toRosMsg` reads it: `getType()`,
`getData()` (bytes), `getHeight()`, `getWidth()` (`unsigned int`),
`getTimestamp()` and `getTimestampDevice()`. -/
structure ImgFrame where
  type : ImgFrameType
  data : List Nat
  height : Nat
  width : Nat
  timestamp : Int
  timestampDevice : Int
deriving DecidableEq, Repr

/-- The message `sensor_msgs/Image`. The field `data` is the byte vector
read as the array of `float` that `memcpy` lays out in it: entry `k` is the
value of bytes `4k .. 4k+3`. -/
structure Image where
  header : Header
  height : Nat
  width : Nat
  encoding : String
  is_bigendian : Bool
  step : Nat
  data : List ℚ
deriving DecidableEq, Repr

/-- The message `stereo_msgs/DisparityImage`, the fields `toRosMsg` writes. -/
structure DisparityImage where
  header : Header
  image : Image
  f : ℚ
  T : ℚ
  min_disparity : ℚ
  max_disparity : ℚ
  delta_d : ℚ
deriving DecidableEq, Repr

/-- The members of `DisparityConverter` that its constructor sets. -/
structure DisparityConverter where
  frameName : String
  focalLength : ℚ
  baseline : ℚ
  minDepth : ℚ
  maxDepth : ℚ
  getBaseDeviceTimestamp : Bool
  timeBase : TimeBase

/-- The constructor `DisparityConverter::DisparityConverter`, given the two
clock readings it takes. -/
def DisparityConverter.construct (frameName : String) (focalLength baseline minDepth maxDepth : ℚ)
    (getBaseDeviceTimestamp : Bool) (rosNow : Time) (steadyNow : Int) : DisparityConverter :=
  { frameName := frameName
    focalLength := focalLength
    baseline := baseline / 100
    minDepth := minDepth / 100
    maxDepth := maxDepth / 100
    getBaseDeviceTimestamp := getBaseDeviceTimestamp
    timeBase := TimeBase.init rosNow steadyNow }

/-- The method `DisparityConverter::updateRosBaseTime`. -/
def DisparityConverter.updateRosBaseTime (c : DisparityConverter) (currentRosTime : Time)
    (currentSteadyTime : Int) : Option (DisparityConverter × Option BaseTimeChange) :=
  match c.timeBase.updateRosBaseTime currentRosTime currentSteadyTime with
  | none => none
  | some (tb, ev) => some ({ c with timeBase := tb }, ev)

/-- The value of an `int16_t` stored in two bytes, low byte first. -/
def int16OfBytes (lo hi : Nat) : Int :=
  let u : Nat := lo % 256 + 256 * (hi % 256)
  if u < 32768 then (u : Int) else (u : Int) - 65536

/-- The elements of a `std::vector<int16_t>` whose storage holds the bytes `bytes`. -/
def int16sOfBytes : List Nat → List Int
  | lo :: hi :: rest => int16OfBytes lo hi :: int16sOfBytes rest
  | _ => []

/-- The vector `raw16Data` after `memcpy(raw16DataPtr, daiImgData, inData->getData().size())`:
`n` elements, zero where no byte was copied. `none`: more bytes are copied
than the vector holds. -/
def raw16Data (n : Nat) (data : List Nat) : Option (List Int) :=
  if data.length ≤ 2 * n then
    some (int16sOfBytes (data ++ List.replicate (2 * n - data.length) 0))
  else none

/-- The lambda `[](int16_t disp) -> std::size_t { return static_cast<float>(disp) / 32.0; }`
followed by the conversion of its result to `float` in `convertedData`.
The quotient is exact; the return type `std::size_t` truncates it toward
zero; `none`: the truncated value is negative, which `std::size_t` cannot
hold. A result is at most 1023 and converts to `float` without change. -/
def disparityOfRaw16 (disp : Int) : Option ℚ :=
  if disp ≤ -32 then none else some (((Int.tdiv disp 32).toNat : Nat) : ℚ)

/-- The call of `std::transform` over `raw16Data`. -/
def transformRaw16 : List Int → Option (List ℚ)
  | [] => some []
  | disp :: rest =>
    match disparityOfRaw16 disp, transformRaw16 rest with
    | some v, some vs => some (v :: vs)
    | _, _ => none

/-- The method `DisparityConverter::toRosMsg`, `push_back` being `++ [·]`.
`none`: `size / inData->getHeight()` divides by zero, or one of the cases
of `raw16Data` and `disparityOfRaw16`. -/
def DisparityConverter.toRosMsg (c : DisparityConverter) (inData : ImgFrame)
    (outDispImageMsgs : List DisparityImage) : Option (List DisparityImage) :=
  let tstamp : Int := if c.getBaseDeviceTimestamp then inData.timestampDevice else inData.timestamp
  let header : Header :=
    { Header.zero with
      frame_id := c.frameName
      stamp := getFrameTime c.timeBase.rosBaseTime c.timeBase.steadyBaseTime tstamp }
  let f : ℚ := c.focalLength
  let min_disparity : ℚ := c.focalLength * c.baseline / c.maxDepth
  let max_disparity : ℚ := c.focalLength * c.baseline / c.minDepth
  let T : ℚ := c.baseline / 100
  if inData.type = ImgFrameType.RAW8 then
    let size : Nat := inData.data.length * 4
    if inData.height = 0 then none
    else
      let convertedData : List ℚ := inData.data.map (fun b => ((b : Nat) : ℚ))
      let outImageMsg : Image :=
        { header := header
          height := inData.height
          width := inData.width
          encoding := "32FC1"
          is_bigendian := true
          step := (size / inData.height) % U32
          data := convertedData }
      some (outDispImageMsgs ++
        [{ header := header, image := outImageMsg, f := f, T := T, min_disparity := min_disparity,
           max_disparity := max_disparity, delta_d := 1 }])
  else
    let size : Nat := (inData.height * inData.width) % U32 * 4
    if inData.height = 0 then none
    else
      match raw16Data ((inData.height * inData.width) % U32) inData.data with
      | none => none
      | some raw16 =>
        match transformRaw16 raw16 with
        | none => none
        | some convertedData =>
          let outImageMsg : Image :=
            { header := header
              height := inData.height
              width := inData.width
              encoding := "32FC1"
              is_bigendian := true
              step := (size / inData.height) % U32
              data := convertedData }
          some (outDispImageMsgs ++
            [{ header := header, image := outImageMsg, f := f, T := T, min_disparity := min_disparity,
               max_disparity := max_disparity, delta_d := 1 / 32 }])

/-- The method `DisparityConverter::toRosMsgPtr`: `toRosMsg` on an empty
`msgQueue`, then `msgQueue.front()`; `none` also when the queue is empty. -/
def DisparityConverter.toRosMsgPtr (c : DisparityConverter) (inData : ImgFrame) : Option DisparityImage :=
  match c.toRosMsg inData [] with
  | none => none
  | some msgQueue => msgQueue.head?

/-! ## Sequences of calls of updateRosBaseTime -/

/-- A sequence of calls of `ImuConverter::updateRosBaseTime`, each with the
two clock readings it takes. A call that throws leaves the converter as it
was, and the caller goes on to the next call. -/
def ImuConverter.rebases (c : ImuConverter) : List (Time × Int) → ImuConverter
  | [] => c
  | r :: rest =>
    match c.updateRosBaseTime r.1 r.2 with
    | none => c.rebases rest
    | some (c1, _) => c1.rebases rest

/-- The diffs of the calls of a sequence that complete: for each, the new
reference anchor in nanoseconds minus the previous one. -/
def ImuConverter.rebaseDiffs (c : ImuConverter) : List (Time × Int) → List Int
  | [] => []
  | r :: rest =>
    match c.updateRosBaseTime r.1 r.2 with
    | none => c.rebaseDiffs rest
    | some (c1, _) =>
      ((c1.timeBase.rosBaseTime.toNSec : Int) - (c.timeBase.rosBaseTime.toNSec : Int)) :: c1.rebaseDiffs rest

/-! ## Sample inputs -/

/-- A reading of `ros::Time::now()`: 100 s. -/
def sampleRosTime0 : Time := ⟨100, 0, by decide, by decide⟩

/-- A later reading of `ros::Time::now()`: 101 s and 500 ns. -/
def sampleRosTime1 : Time := ⟨101, 500, by decide, by decide⟩

/-- An `ImuConverter` constructed at `sampleRosTime0`, the steady clock reading 5 ns,
with `enable_rotation = false`. -/
def sampleImuConverter : ImuConverter :=
  ImuConverter.construct "imu" ImuSyncMethod.COPY 1 2 3 4 false sampleRosTime0 5

/-- A `DisparityConverter` constructed at `sampleRosTime0`, the steady clock
reading 5 ns, with a baseline of 7.5 cm. -/
def sampleDisparityConverter : DisparityConverter :=
  DisparityConverter.construct "stereo" 880 (15 / 2) 80 1100 false sampleRosTime0 5

/-- The converter `sampleImuConverter` after `updateRosBaseTime` with the
readings `sampleRosTime1` and 1 000 000 005 ns: the anchor moved by 500 ns. -/
def sampleImuConverter1 : ImuConverter :=
  { sampleImuConverter with
    timeBase := { steadyBaseTime := 5, rosBaseTime := ⟨100, 500, by decide, by decide⟩, totalNsChange := 500 } }

/-- The 3x3 matrix with `c` on its diagonal and zero elsewhere, row-major:
index `i` is row `i / 3`, column `i % 3`. -/
def diagonalCovariance (c : ℚ) : List ℚ :=
  (List.range 9).map (fun i => if i / 3 = i % 3 then c else 0)

/-- A rotation-vector report with non-zero components. -/
def sampleRotationVector : IMUReportRotationVectorWAcc :=
  { i := 1 / 2, j := 1 / 2, k := 1 / 2, real := 1 / 2, timestamp := 7 }

/-- An `ImuConverter` with `enable_rotation = true`. -/
def sampleImuConverterRot : ImuConverter :=
  ImuConverter.construct "imu" ImuSyncMethod.COPY 1 2 3 4 true sampleRosTime0 5

/-- An accelerometer report. -/
def sampleAccelerometer : IMUReportAccelerometer := { x := 1, y := 2, z := 3, timestamp := 10 }

/-- A gyroscope report. -/
def sampleGyroscope : IMUReportGyroscope := { x := 4, y := 5, z := 6, timestamp := 10 }

/-- A magnetic-field report. -/
def sampleMagneticField : IMUReportMagneticField := { x := 7, y := 8, z := 9, timestamp := 10 }

/-- Two packets. -/
def samplePackets : List IMUPacket :=
  [ { acceleroMeter := sampleAccelerometer
      gyroscope := sampleGyroscope
      magneticField := sampleMagneticField
      rotationVector := sampleRotationVector },
    { acceleroMeter := { x := 11, y := 12, z := 13, timestamp := 20 }
      gyroscope := { x := 14, y := 15, z := 16, timestamp := 20 }
      magneticField := { x := 17, y := 18, z := 19, timestamp := 20 }
      rotationVector := sampleRotationVector } ]

/-- The frames on which every step of `DisparityConverter::toRosMsg` is
defined: the height is not zero and, when the type is not `RAW8`, the data
fits `raw16Data` and no 16-bit value is -32 or less. -/
def ImgFrame.defined (f : ImgFrame) : Prop :=
  f.height ≠ 0 ∧
  (f.type ≠ ImgFrameType.RAW8 →
    f.data.length ≤ 2 * ((f.height * f.width) % U32) ∧
    ∀ d ∈ int16sOfBytes (f.data ++ List.replicate (2 * ((f.height * f.width) % U32) - f.data.length) 0),
      -32 < d)

instance (f : ImgFrame) : Decidable f.defined := by
  unfold ImgFrame.defined
  infer_instance

/-- Three calls of `updateRosBaseTime` on `sampleImuConverter`, one second
apart on the steady clock; the reference clock is 500 ns ahead at the first,
400 ns ahead at the second and the third. -/
def sampleCalls : List (Time × Int) :=
  [(sampleRosTime1, 1000000005),
   (⟨102, 400, by decide, by decide⟩, 2000000005),
   (⟨103, 400, by decide, by decide⟩, 3000000005)]

/-- A `RAW8` frame of one pixel. -/
def sampleFrameRaw8 : ImgFrame :=
  { type := ImgFrameType.RAW8, data := [200], height := 1, width := 1, timestamp := 1005, timestampDevice := 2005 }

/-- A `RAW16` frame of one pixel, whose 16-bit value is 33. -/
def sampleFrameRaw16 : ImgFrame :=
  { type := ImgFrameType.RAW16, data := [33, 0], height := 1, width := 1, timestamp := 1005,
    timestampDevice := 2005 }

/-- A frame of height 0, without data. -/
def sampleFrameEmpty : ImgFrame :=
  { type := ImgFrameType.RAW8, data := [], height := 0, width := 0, timestamp := 1005, timestampDevice := 2005 }

/-- A `RAW16` frame of one pixel that holds four bytes. -/
def sampleFrameOverlong : ImgFrame :=
  { type := ImgFrameType.RAW16, data := [1, 0, 2, 0], height := 1, width := 1, timestamp := 1005,
    timestampDevice := 2005 }

/-- A `RAW16` frame of one pixel, whose 16-bit value is -32 (bytes `E0 FF`). -/
def sampleFrameNegative : ImgFrame :=
  { type := ImgFrameType.RAW16, data := [224, 255], height := 1, width := 1, timestamp := 1005,
    timestampDevice := 2005 }

/-! ## Theorems: the time base -/

theorem Time.toNSec_lt (t : Time) : t.toNSec < 4294967296000000000 := by
  have h1 := t.sec_lt
  have h2 := t.nsec_lt
  unfold Time.toNSec
  omega

theorem Time.fromNSec_eq_some {t : Nat} {r : Time} (h : Time.fromNSec t = some r) : r.toNSec = t := by
  unfold Time.fromNSec at h
  split at h
  · injection h with h
    subst h
    simp only [Time.toNSec]
    omega
  · cases h

theorem Time.fromNSec_of_lt {t : Nat} (h : t < 4294967296000000000) : ∃ r, Time.fromNSec t = some r := by
  unfold Time.fromNSec
  have h1 : t / 1000000000 < 4294967296 := by omega
  rw [dif_pos h1]
  exact ⟨_, rfl⟩

theorem toInt64_toUInt64_sub (a b : Nat) (ha : a < 4294967296000000000) (hb : b < 4294967296000000000) :
    toInt64 (toUInt64 ((a : Int) - (b : Int))) = (a : Int) - (b : Int) := by
  unfold toInt64 toUInt64
  omega

/-- What a call of `updateRosBaseTime` that completes has done. -/
theorem TimeBase.updateRosBaseTime_completed {tb tb1 : TimeBase} {ros : Time} {steady : Int}
    {ev : Option BaseTimeChange} (h : tb.updateRosBaseTime ros steady = some (tb1, ev)) :
    tb1.steadyBaseTime = tb.steadyBaseTime ∧
    tb1.rosBaseTime.toNSec = toUInt64 ((ros.toNSec : Int) - toInt64 (steady - tb.steadyBaseTime)) ∧
    tb1.totalNsChange =
      toInt64 (tb.totalNsChange + ((tb1.rosBaseTime.toNSec : Int) - (tb.rosBaseTime.toNSec : Int))) ∧
    ev = (if |(tb1.rosBaseTime.toNSec : Int) - (tb.rosBaseTime.toNSec : Int)| > 100 then
            some { diff := (tb1.rosBaseTime.toNSec : Int) - (tb.rosBaseTime.toNSec : Int)
                   totalNsChange := tb1.totalNsChange
                   newTimeNs := tb1.rosBaseTime.toNSec }
          else none) := by
  unfold TimeBase.updateRosBaseTime at h
  simp only at h
  split at h
  · cases h
  · rename_i r hr
    have hr1 := Time.fromNSec_eq_some hr
    have hd := toInt64_toUInt64_sub r.toNSec tb.rosBaseTime.toNSec r.toNSec_lt tb.rosBaseTime.toNSec_lt
    rw [hd] at h
    simp only [ZERO_TIME_DELTA_NS] at h
    split at h
    · rename_i hlt
      injection h with h
      injection h with h1 h2
      subst h1
      subst h2
      simp only [hr1, hd]
      rw [hr1] at hlt
      rw [if_pos hlt]
      exact ⟨trivial, trivial, trivial, rfl⟩
    · rename_i hlt
      injection h with h
      injection h with h1 h2
      subst h1
      subst h2
      simp only [hr1, hd]
      rw [hr1] at hlt
      rw [if_neg hlt]
      exact ⟨trivial, trivial, trivial, rfl⟩

theorem TimeBase.updateRosBaseTime_anchor (tb : TimeBase) (ros : Time) (steady : Int)
    (hmono : tb.steadyBaseTime ≤ steady) (hfit : steady - tb.steadyBaseTime ≤ (ros.toNSec : Int)) :
    ∃ tb1 ev, tb.updateRosBaseTime ros steady = some (tb1, ev) ∧
      tb1.steadyBaseTime = tb.steadyBaseTime ∧
      (tb1.rosBaseTime.toNSec : Int) = (ros.toNSec : Int) - (steady - tb.steadyBaseTime) ∧
      getFrameTime tb1.rosBaseTime tb1.steadyBaseTime steady = (ros.toNSec : Int) := by
  have hlt := ros.toNSec_lt
  have he : toInt64 (steady - tb.steadyBaseTime) = steady - tb.steadyBaseTime := by
    unfold toInt64
    omega
  have hu : toUInt64 ((ros.toNSec : Int) - toInt64 (steady - tb.steadyBaseTime)) < 4294967296000000000 := by
    rw [he]
    unfold toUInt64
    omega
  obtain ⟨r, hr⟩ := Time.fromNSec_of_lt hu
  have hex : ∃ out, tb.updateRosBaseTime ros steady = some out := by
    unfold TimeBase.updateRosBaseTime
    simp only [hr]
    split <;> exact ⟨_, rfl⟩
  obtain ⟨⟨tb1, ev⟩, hout⟩ := hex
  obtain ⟨h1, h2, _, _⟩ := TimeBase.updateRosBaseTime_completed hout
  have h3 : (tb1.rosBaseTime.toNSec : Int) = (ros.toNSec : Int) - (steady - tb.steadyBaseTime) := by
    rw [h2, he]
    unfold toUInt64
    omega
  refine ⟨tb1, ev, hout, h1, h3, ?_⟩
  unfold getFrameTime
  rw [h3, h1]
  omega

theorem ImuConverter.updateRosBaseTime_timeBase {c c1 : ImuConverter} {ros : Time} {steady : Int}
    {ev : Option BaseTimeChange} (h : c.updateRosBaseTime ros steady = some (c1, ev)) :
    ∃ tb1, c.timeBase.updateRosBaseTime ros steady = some (tb1, ev) ∧ c1 = { c with timeBase := tb1 } := by
  unfold ImuConverter.updateRosBaseTime at h
  split at h
  · cases h
  · rename_i tb e htb
    injection h with h
    injection h with h1 h2
    subst h1
    subst h2
    exact ⟨tb, htb, rfl⟩

theorem ImuConverter.updateRosBaseTime_lift {c : ImuConverter} {ros : Time} {steady : Int}
    {tb1 : TimeBase} {ev : Option BaseTimeChange}
    (h : c.timeBase.updateRosBaseTime ros steady = some (tb1, ev)) :
    c.updateRosBaseTime ros steady = some ({ c with timeBase := tb1 }, ev) := by
  unfold ImuConverter.updateRosBaseTime
  rw [h]

theorem DisparityConverter.updateRosBaseTime_lift_disparity {c : DisparityConverter} {ros : Time}
    {steady : Int} {tb1 : TimeBase} {ev : Option BaseTimeChange}
    (h : c.timeBase.updateRosBaseTime ros steady = some (tb1, ev)) :
    c.updateRosBaseTime ros steady = some ({ c with timeBase := tb1 }, ev) := by
  unfold DisparityConverter.updateRosBaseTime
  rw [h]

/-- C2: a call of `updateRosBaseTime` whose reading of the reference clock,
in nanoseconds, is at least the time elapsed on the steady clock since the
steady anchor completes; the new reference anchor is the reference reading
minus the elapsed time, the steady anchor is kept, and translating the same
steady reading with the new anchor gives the reference reading. It holds for
`ImuConverter` and for `DisparityConverter`. -/
theorem updateRosBaseTime_rebases_to_reading (ic : ImuConverter) (dc : DisparityConverter)
    (ros : Time) (steady : Int)
    (hmonoI : ic.timeBase.steadyBaseTime ≤ steady)
    (hfitI : steady - ic.timeBase.steadyBaseTime ≤ (ros.toNSec : Int))
    (hmonoD : dc.timeBase.steadyBaseTime ≤ steady)
    (hfitD : steady - dc.timeBase.steadyBaseTime ≤ (ros.toNSec : Int)) :
    (∃ ic1 ev, ic.updateRosBaseTime ros steady = some (ic1, ev) ∧
      ic1.timeBase.steadyBaseTime = ic.timeBase.steadyBaseTime ∧
      (ic1.timeBase.rosBaseTime.toNSec : Int) =
        (ros.toNSec : Int) - (steady - ic.timeBase.steadyBaseTime) ∧
      getFrameTime ic1.timeBase.rosBaseTime ic1.timeBase.steadyBaseTime steady = (ros.toNSec : Int)) ∧
    (∃ dc1 ev, dc.updateRosBaseTime ros steady = some (dc1, ev) ∧
      dc1.timeBase.steadyBaseTime = dc.timeBase.steadyBaseTime ∧
      (dc1.timeBase.rosBaseTime.toNSec : Int) =
        (ros.toNSec : Int) - (steady - dc.timeBase.steadyBaseTime) ∧
      getFrameTime dc1.timeBase.rosBaseTime dc1.timeBase.steadyBaseTime steady = (ros.toNSec : Int)) := by
  constructor
  · obtain ⟨tb1, ev, h, h1, h2, h3⟩ := TimeBase.updateRosBaseTime_anchor ic.timeBase ros steady hmonoI hfitI
    exact ⟨_, ev, ImuConverter.updateRosBaseTime_lift h, h1, h2, h3⟩
  · obtain ⟨tb1, ev, h, h1, h2, h3⟩ := TimeBase.updateRosBaseTime_anchor dc.timeBase ros steady hmonoD hfitD
    exact ⟨_, ev, DisparityConverter.updateRosBaseTime_lift_disparity h, h1, h2, h3⟩

/-- C2, at a concrete input: converters anchored at 100 s and 5 ns are
rebased with the readings 101 s + 500 ns and 1 000 000 005 ns. -/
theorem updateRosBaseTime_rebases_to_reading_witness :
    (sampleImuConverter.timeBase.steadyBaseTime ≤ 1000000005 ∧
      (1000000005 : Int) - sampleImuConverter.timeBase.steadyBaseTime ≤ (sampleRosTime1.toNSec : Int)) ∧
    (∃ ic1 ev, sampleImuConverter.updateRosBaseTime sampleRosTime1 1000000005 = some (ic1, ev) ∧
      ic1.timeBase.steadyBaseTime = sampleImuConverter.timeBase.steadyBaseTime ∧
      (ic1.timeBase.rosBaseTime.toNSec : Int) =
        (sampleRosTime1.toNSec : Int) - (1000000005 - sampleImuConverter.timeBase.steadyBaseTime) ∧
      getFrameTime ic1.timeBase.rosBaseTime ic1.timeBase.steadyBaseTime 1000000005 =
        (sampleRosTime1.toNSec : Int)) ∧
    (∃ dc1 ev, sampleDisparityConverter.updateRosBaseTime sampleRosTime1 1000000005 = some (dc1, ev) ∧
      dc1.timeBase.steadyBaseTime = sampleDisparityConverter.timeBase.steadyBaseTime ∧
      (dc1.timeBase.rosBaseTime.toNSec : Int) =
        (sampleRosTime1.toNSec : Int) - (1000000005 - sampleDisparityConverter.timeBase.steadyBaseTime) ∧
      getFrameTime dc1.timeBase.rosBaseTime dc1.timeBase.steadyBaseTime 1000000005 =
        (sampleRosTime1.toNSec : Int)) :=
  ⟨⟨by decide, by decide⟩,
    updateRosBaseTime_rebases_to_reading sampleImuConverter sampleDisparityConverter sampleRosTime1
      1000000005 (by decide) (by decide) (by decide) (by decide)⟩

/-! ## Theorems: the drift ledger -/

theorem ImuConverter.rebaseDiffs_sum (calls : List (Time × Int)) :
    ∀ c : ImuConverter, (c.rebaseDiffs calls).sum =
      ((c.rebases calls).timeBase.rosBaseTime.toNSec : Int) - (c.timeBase.rosBaseTime.toNSec : Int) := by
  induction calls with
  | nil =>
    intro c
    simp [ImuConverter.rebaseDiffs, ImuConverter.rebases]
  | cons r rest ih =>
    intro c
    unfold ImuConverter.rebaseDiffs ImuConverter.rebases
    cases hu : c.updateRosBaseTime r.1 r.2 with
    | none => exact ih c
    | some out =>
      obtain ⟨c1, ev⟩ := out
      simp only [List.sum_cons]
      rw [ih c1]
      omega

theorem ImuConverter.rebases_ledger (a0 : Nat) (ha0 : a0 < 4294967296000000000)
    (calls : List (Time × Int)) :
    ∀ c : ImuConverter, c.timeBase.totalNsChange = (c.timeBase.rosBaseTime.toNSec : Int) - (a0 : Int) →
      (c.rebases calls).timeBase.totalNsChange =
        ((c.rebases calls).timeBase.rosBaseTime.toNSec : Int) - (a0 : Int) := by
  induction calls with
  | nil =>
    intro c hc
    simpa [ImuConverter.rebases] using hc
  | cons r rest ih =>
    intro c hc
    unfold ImuConverter.rebases
    cases hu : c.updateRosBaseTime r.1 r.2 with
    | none => exact ih c hc
    | some out =>
      obtain ⟨c1, ev⟩ := out
      obtain ⟨tb1, htb, hc1⟩ := ImuConverter.updateRosBaseTime_timeBase hu
      obtain ⟨_, _, h3, _⟩ := TimeBase.updateRosBaseTime_completed htb
      apply ih c1
      subst hc1
      simp only
      rw [h3, hc]
      have h1 := tb1.rosBaseTime.toNSec_lt
      have h2 := c.timeBase.rosBaseTime.toNSec_lt
      unfold toInt64
      omega

/-- C3: on a freshly constructed `ImuConverter`, after any finite sequence
of calls of `updateRosBaseTime`, `_totalNsChange` is the sum of the diffs of
the calls (new reference anchor minus previous reference anchor, in
nanoseconds), and it is the final reference anchor minus the anchor taken at
construction, as integers: the 64-bit arithmetic never wraps. -/
theorem totalNsChange_eq_sum_of_diffs (frameName : String) (syncMode : ImuSyncMethod)
    (linear_accel_cov angular_velocity_cov rotation_cov magnetic_field_cov : ℚ) (enable_rotation : Bool)
    (rosNow : Time) (steadyNow : Int) (calls : List (Time × Int)) :
    ((ImuConverter.construct frameName syncMode linear_accel_cov angular_velocity_cov rotation_cov
        magnetic_field_cov enable_rotation rosNow steadyNow).rebases calls).timeBase.totalNsChange =
      ((ImuConverter.construct frameName syncMode linear_accel_cov angular_velocity_cov rotation_cov
        magnetic_field_cov enable_rotation rosNow steadyNow).rebaseDiffs calls).sum ∧
    ((ImuConverter.construct frameName syncMode linear_accel_cov angular_velocity_cov rotation_cov
        magnetic_field_cov enable_rotation rosNow steadyNow).rebases calls).timeBase.totalNsChange =
      (((ImuConverter.construct frameName syncMode linear_accel_cov angular_velocity_cov rotation_cov
        magnetic_field_cov enable_rotation rosNow steadyNow).rebases calls).timeBase.rosBaseTime.toNSec : Int)
        - (rosNow.toNSec : Int) := by
  have hl := ImuConverter.rebases_ledger rosNow.toNSec rosNow.toNSec_lt calls
    (ImuConverter.construct frameName syncMode linear_accel_cov angular_velocity_cov rotation_cov
      magnetic_field_cov enable_rotation rosNow steadyNow)
    (by simp [ImuConverter.construct, TimeBase.init])
  refine ⟨?_, hl⟩
  rw [hl, ImuConverter.rebaseDiffs_sum]
  simp [ImuConverter.construct, TimeBase.init]

/-- Three rebases with known offsets: the diffs are 500, -100 and 0, and the
ledger ends at 400. -/
theorem rebases_sampleCalls :
    sampleImuConverter.rebaseDiffs sampleCalls = [500, -100, 0] ∧
    (sampleImuConverter.rebases sampleCalls).timeBase.totalNsChange = 400 ∧
    (sampleImuConverter.rebases sampleCalls).timeBase.rosBaseTime.toNSec = 100000000400 :=
  ⟨rfl, rfl, rfl⟩

/-! ## Theorems: the diagnostic event -/

/-- C4: for every call of `updateRosBaseTime` that completes, with `diff` the
new reference anchor minus the previous one in nanoseconds, the "ROS base
time changed" event is emitted if and only if `|diff| > 100`; there is none
when `|diff| ≤ 100`; an emitted event carries `diff`, the new total and the
new anchor; and in both cases the anchor is replaced and `diff` is added to
`_totalNsChange` (as `int64_t`). -/
theorem baseTimeChange_iff_abs_diff_gt (c c1 : ImuConverter) (ros : Time) (steady : Int)
    (ev : Option BaseTimeChange) (h : c.updateRosBaseTime ros steady = some (c1, ev)) :
    (ev.isSome = true ↔
      |(c1.timeBase.rosBaseTime.toNSec : Int) - (c.timeBase.rosBaseTime.toNSec : Int)| > ZERO_TIME_DELTA_NS) ∧
    (|(c1.timeBase.rosBaseTime.toNSec : Int) - (c.timeBase.rosBaseTime.toNSec : Int)| ≤ 100 → ev = none) ∧
    (∀ e, ev = some e →
      e.diff = (c1.timeBase.rosBaseTime.toNSec : Int) - (c.timeBase.rosBaseTime.toNSec : Int) ∧
      e.totalNsChange = c1.timeBase.totalNsChange ∧ e.newTimeNs = c1.timeBase.rosBaseTime.toNSec) ∧
    c1.timeBase.rosBaseTime.toNSec =
      toUInt64 ((ros.toNSec : Int) - toInt64 (steady - c.timeBase.steadyBaseTime)) ∧
    c1.timeBase.totalNsChange =
      toInt64 (c.timeBase.totalNsChange +
        ((c1.timeBase.rosBaseTime.toNSec : Int) - (c.timeBase.rosBaseTime.toNSec : Int))) := by
  obtain ⟨tb1, htb, hc1⟩ := ImuConverter.updateRosBaseTime_timeBase h
  obtain ⟨_, h2, h3, h4⟩ := TimeBase.updateRosBaseTime_completed htb
  subst hc1
  simp only [ZERO_TIME_DELTA_NS]
  refine ⟨?_, ?_, ?_, h2, h3⟩
  · rw [h4]
    split <;> simp_all
  · intro hle
    rw [h4, if_neg (by omega)]
  · intro e he
    rw [h4] at he
    split at he
    · injection he with he
      subst he
      exact ⟨rfl, rfl, rfl⟩
    · cases he

/-- C4, at a concrete input: the anchor moves by 500 ns and the event is emitted. -/
theorem baseTimeChange_iff_abs_diff_gt_witness :
    sampleImuConverter.updateRosBaseTime sampleRosTime1 1000000005 =
      some (sampleImuConverter1, some { diff := 500, totalNsChange := 500, newTimeNs := 100000000500 }) ∧
    ((some ({ diff := 500, totalNsChange := 500, newTimeNs := 100000000500 } : BaseTimeChange)).isSome = true ↔
      |(sampleImuConverter1.timeBase.rosBaseTime.toNSec : Int) -
        (sampleImuConverter.timeBase.rosBaseTime.toNSec : Int)| > ZERO_TIME_DELTA_NS) :=
  ⟨rfl, (baseTimeChange_iff_abs_diff_gt sampleImuConverter sampleImuConverter1 sampleRosTime1 1000000005
    (some { diff := 500, totalNsChange := 500, newTimeNs := 100000000500 }) rfl).1⟩

/-! ## Theorems: fillImuMsg -/

theorem diagonalCovariance_eq (c : ℚ) : diagonalCovariance c = [c, 0, 0, 0, c, 0, 0, 0, c] := by
  simp [diagonalCovariance, List.range, List.range.loop]

/-- C1, as stated, fails: with `enable_rotation = false` the elements `[4]`
and `[8]` of the orientation covariance are 0, not -1. -/
theorem orientation_covariance_diagonal_not_all_minus_one :
    ¬ (∀ (c : ImuConverter) (report : IMUReportRotationVectorWAcc) (msg : Imu),
        c.enable_rotation = false →
        (c.fillImuMsgRotationVectorWAcc report msg).orientation = { x := 0, y := 0, z := 0, w := 1 } ∧
        (c.fillImuMsgRotationVectorWAcc report msg).orientation_covariance[0]? = some (-1 : ℚ) ∧
        (c.fillImuMsgRotationVectorWAcc report msg).orientation_covariance[4]? = some (-1 : ℚ) ∧
        (c.fillImuMsgRotationVectorWAcc report msg).orientation_covariance[8]? = some (-1 : ℚ)) := by
  intro h
  have h4 := (h sampleImuConverter sampleRotationVector Imu.zero rfl).2.2.1
  simp [ImuConverter.fillImuMsgRotationVectorWAcc, sampleImuConverter, ImuConverter.construct] at h4

/-- C1, amended: with `enable_rotation = false`, for every rotation-vector
report, `fillImuMsg` sets the orientation to the identity quaternion and the
orientation covariance to the array whose element `[0]` is -1 and whose
other eight elements are 0; it changes nothing else. -/
theorem fillImuMsg_rotation_disabled (c : ImuConverter) (report : IMUReportRotationVectorWAcc) (msg : Imu)
    (h : c.enable_rotation = false) :
    (c.fillImuMsgRotationVectorWAcc report msg).orientation = { x := 0, y := 0, z := 0, w := 1 } ∧
    (c.fillImuMsgRotationVectorWAcc report msg).orientation_covariance = [-1, 0, 0, 0, 0, 0, 0, 0, 0] ∧
    (c.fillImuMsgRotationVectorWAcc report msg).orientation_covariance[0]? = some (-1 : ℚ) ∧
    (c.fillImuMsgRotationVectorWAcc report msg).orientation_covariance[4]? = some (0 : ℚ) ∧
    (c.fillImuMsgRotationVectorWAcc report msg).orientation_covariance[8]? = some (0 : ℚ) ∧
    c.fillImuMsgRotationVectorWAcc report msg =
      { msg with
        orientation := (c.fillImuMsgRotationVectorWAcc report msg).orientation
        orientation_covariance := (c.fillImuMsgRotationVectorWAcc report msg).orientation_covariance } := by
  simp [ImuConverter.fillImuMsgRotationVectorWAcc, h]

/-- C1, amended, at a concrete input. -/
theorem fillImuMsg_rotation_disabled_witness :
    sampleImuConverter.enable_rotation = false ∧
    (sampleImuConverter.fillImuMsgRotationVectorWAcc sampleRotationVector Imu.zero).orientation_covariance =
      [-1, 0, 0, 0, 0, 0, 0, 0, 0] :=
  ⟨rfl, (fillImuMsg_rotation_disabled sampleImuConverter sampleRotationVector Imu.zero rfl).2.1⟩

/-- C6: `fillImuMsg` with a magnetic-field report leaves an `Imu` message as
it is; on an `ImuWithMagneticField` message it sets `magnetic_field` to the
report's `x`, `y`, `z` and `magnetic_field_covariance`, and changes nothing
else: the embedded `imu` (orientation, angular velocity, linear acceleration
and their covariances) and the headers are kept. -/
theorem fillImuMsg_magneticField_frame (c : ImuConverter) (report : IMUReportMagneticField) (msg : Imu)
    (daiMsg : ImuWithMagneticField) :
    c.fillImuMsgMagneticField report msg = msg ∧
    (c.fillImuMsgMagneticFieldDai report daiMsg).imu = daiMsg.imu ∧
    (c.fillImuMsgMagneticFieldDai report daiMsg).imu.orientation = daiMsg.imu.orientation ∧
    (c.fillImuMsgMagneticFieldDai report daiMsg).imu.orientation_covariance =
      daiMsg.imu.orientation_covariance ∧
    (c.fillImuMsgMagneticFieldDai report daiMsg).imu.angular_velocity = daiMsg.imu.angular_velocity ∧
    (c.fillImuMsgMagneticFieldDai report daiMsg).imu.angular_velocity_covariance =
      daiMsg.imu.angular_velocity_covariance ∧
    (c.fillImuMsgMagneticFieldDai report daiMsg).imu.linear_acceleration = daiMsg.imu.linear_acceleration ∧
    (c.fillImuMsgMagneticFieldDai report daiMsg).imu.linear_acceleration_covariance =
      daiMsg.imu.linear_acceleration_covariance ∧
    (c.fillImuMsgMagneticFieldDai report daiMsg).header = daiMsg.header ∧
    (c.fillImuMsgMagneticFieldDai report daiMsg).field.header = daiMsg.field.header ∧
    (c.fillImuMsgMagneticFieldDai report daiMsg).field.magnetic_field =
      { x := report.x, y := report.y, z := report.z } ∧
    c.fillImuMsgMagneticFieldDai report daiMsg =
      { daiMsg with
        field :=
          { daiMsg.field with
            magnetic_field := { x := report.x, y := report.y, z := report.z }
            magnetic_field_covariance :=
              (c.fillImuMsgMagneticFieldDai report daiMsg).field.magnetic_field_covariance } } := by
  simp [ImuConverter.fillImuMsgMagneticField, ImuConverter.fillImuMsgMagneticFieldDai]

/-- C7: `fillImuMsg` copies the components of a report into the vector of
its modality and sets the covariance of that modality to the diagonal matrix
of the configured scalar (the scalar at indices 0, 4, 8, zero at the six
others); the other fields of the message are kept. The accelerometer, the
gyroscope and the magnetic field (on an `ImuWithMagneticField`) do so on
every converter, whatever `enable_rotation` is; the rotation vector does so
when `enable_rotation = true`. -/
theorem fillImuMsg_sets_modality (c : ImuConverter) (accel : IMUReportAccelerometer)
    (gyro : IMUReportGyroscope) (rot : IMUReportRotationVectorWAcc) (magn : IMUReportMagneticField)
    (msg : Imu) (daiMsg : ImuWithMagneticField) :
    c.fillImuMsgAccelerometer accel msg =
      { msg with
        linear_acceleration := { x := accel.x, y := accel.y, z := accel.z }
        linear_acceleration_covariance := diagonalCovariance c.linear_accel_cov } ∧
    c.fillImuMsgGyroscope gyro msg =
      { msg with
        angular_velocity := { x := gyro.x, y := gyro.y, z := gyro.z }
        angular_velocity_covariance := diagonalCovariance c.angular_velocity_cov } ∧
    (c.enable_rotation = true →
      c.fillImuMsgRotationVectorWAcc rot msg =
        { msg with
          orientation := { x := rot.i, y := rot.j, z := rot.k, w := rot.real }
          orientation_covariance := diagonalCovariance c.rotation_cov }) ∧
    c.fillImuMsgMagneticFieldDai magn daiMsg =
      { daiMsg with
        field :=
          { daiMsg.field with
            magnetic_field := { x := magn.x, y := magn.y, z := magn.z }
            magnetic_field_covariance := diagonalCovariance c.magnetic_field_cov } } ∧
    c.fillImuMsgAccelerometerDai accel daiMsg =
      { daiMsg with imu := c.fillImuMsgAccelerometer accel daiMsg.imu } ∧
    c.fillImuMsgGyroscopeDai gyro daiMsg =
      { daiMsg with imu := c.fillImuMsgGyroscope gyro daiMsg.imu } ∧
    c.fillImuMsgRotationVectorWAccDai rot daiMsg =
      { daiMsg with imu := c.fillImuMsgRotationVectorWAcc rot daiMsg.imu } ∧
    (∀ s : ℚ, ∀ i, i < 9 →
      (diagonalCovariance s)[i]? = some (if i = 0 ∨ i = 4 ∨ i = 8 then s else 0)) := by
  refine ⟨?_, ?_, ?_, ?_, rfl, rfl, rfl, ?_⟩
  · simp [ImuConverter.fillImuMsgAccelerometer, diagonalCovariance_eq]
  · simp [ImuConverter.fillImuMsgGyroscope, diagonalCovariance_eq]
  · intro hrot
    simp [ImuConverter.fillImuMsgRotationVectorWAcc, hrot, diagonalCovariance_eq]
  · simp [ImuConverter.fillImuMsgMagneticFieldDai, diagonalCovariance_eq]
  · intro s i hi
    rw [diagonalCovariance_eq]
    interval_cases i <;> simp

/-- C7, at concrete inputs: a rotation-vector report on a converter with
`enable_rotation = true` and rotation covariance 3; an accelerometer, a
gyroscope and a magnetic-field report on a converter with
`enable_rotation = false` and covariances 1, 2 and 4. -/
theorem fillImuMsg_sets_modality_witness :
    (sampleImuConverterRot.enable_rotation = true ∧
      (sampleImuConverterRot.fillImuMsgRotationVectorWAcc sampleRotationVector Imu.zero).orientation =
        { x := 1 / 2, y := 1 / 2, z := 1 / 2, w := 1 / 2 } ∧
      (sampleImuConverterRot.fillImuMsgRotationVectorWAcc sampleRotationVector
        Imu.zero).orientation_covariance = [3, 0, 0, 0, 3, 0, 0, 0, 3]) ∧
    (sampleImuConverter.enable_rotation = false ∧
      (sampleImuConverter.fillImuMsgAccelerometer sampleAccelerometer Imu.zero).linear_acceleration =
        { x := 1, y := 2, z := 3 } ∧
      (sampleImuConverter.fillImuMsgAccelerometer sampleAccelerometer
        Imu.zero).linear_acceleration_covariance = [1, 0, 0, 0, 1, 0, 0, 0, 1] ∧
      (sampleImuConverter.fillImuMsgGyroscope sampleGyroscope Imu.zero).angular_velocity_covariance =
        [2, 0, 0, 0, 2, 0, 0, 0, 2] ∧
      (sampleImuConverter.fillImuMsgMagneticFieldDai sampleMagneticField
        ImuWithMagneticField.zero).field.magnetic_field_covariance = [4, 0, 0, 0, 4, 0, 0, 0, 4]) := by
  have hr := (fillImuMsg_sets_modality sampleImuConverterRot sampleAccelerometer sampleGyroscope
    sampleRotationVector sampleMagneticField Imu.zero ImuWithMagneticField.zero).2.2.1 rfl
  have hd := fillImuMsg_sets_modality sampleImuConverter sampleAccelerometer sampleGyroscope
    sampleRotationVector sampleMagneticField Imu.zero ImuWithMagneticField.zero
  refine ⟨⟨rfl, ?_, ?_⟩, ⟨rfl, ?_, ?_, ?_, ?_⟩⟩
  · rw [hr]
    rfl
  · rw [hr, diagonalCovariance_eq]
    rfl
  · rw [hd.1]
    rfl
  · rw [hd.1, diagonalCovariance_eq]
    rfl
  · rw [hd.2.1, diagonalCovariance_eq]
    rfl
  · rw [hd.2.2.2.1, diagonalCovariance_eq]
    rfl

/-! ## Theorems: toRosMsg of ImuConverter -/

theorem ImuConverter.toRosMsgLoop_eq (c : ImuConverter) (packets : List IMUPacket) :
    ∀ (n i : Nat) (out : List Imu), packets.length - i = n →
      c.toRosMsgLoop packets i out =
        out ++ (packets.drop i).map (fun p =>
          c.CreateUnitMessage p.acceleroMeter p.gyroscope p.rotationVector p.magneticField Imu.zero
            p.acceleroMeter.timestamp) := by
  intro n
  induction n with
  | zero =>
    intro i out hn
    unfold ImuConverter.toRosMsgLoop
    have hi : ¬ i < packets.length := by omega
    rw [dif_neg hi, List.drop_eq_nil_of_le (by omega)]
    simp
  | succ n ih =>
    intro i out hn
    unfold ImuConverter.toRosMsgLoop
    have hi : i < packets.length := by omega
    rw [dif_pos hi]
    simp only
    rw [ih (i + 1) _ (by omega), List.drop_eq_getElem_cons hi]
    simp only [List.map_cons, List.append_assoc, List.singleton_append, List.get_eq_getElem]

theorem ImuConverter.toRosDaiMsgLoop_eq (c : ImuConverter) (packets : List IMUPacket) :
    ∀ (n i : Nat) (out : List ImuWithMagneticField), packets.length - i = n →
      c.toRosDaiMsgLoop packets i out =
        out ++ (packets.drop i).map (fun p =>
          c.CreateUnitMessageDai p.acceleroMeter p.gyroscope p.rotationVector p.magneticField
            ImuWithMagneticField.zero p.acceleroMeter.timestamp) := by
  intro n
  induction n with
  | zero =>
    intro i out hn
    unfold ImuConverter.toRosDaiMsgLoop
    have hi : ¬ i < packets.length := by omega
    rw [dif_neg hi, List.drop_eq_nil_of_le (by omega)]
    simp
  | succ n ih =>
    intro i out hn
    unfold ImuConverter.toRosDaiMsgLoop
    have hi : i < packets.length := by omega
    rw [dif_pos hi]
    simp only
    rw [ih (i + 1) _ (by omega), List.drop_eq_getElem_cons hi]
    simp only [List.map_cons, List.append_assoc, List.singleton_append, List.get_eq_getElem]

/-- C5: under the `COPY` policy, `toRosMsg` and `toRosDaiMsg` leave the
output sequence equal to its previous contents followed by one record per
packet, in the order of the packets, the record of a packet being
`CreateUnitMessage` of its four reports on a fresh message; so the length
grows by the number of packets, the record at position `i` after the
previous contents comes from packet `i`, and an empty batch changes nothing. -/
theorem toRosMsg_copy_appends_in_order
    (interpolate : List IMUPacket → List Imu → List Imu)
    (interpolateDai : List IMUPacket → List ImuWithMagneticField → List ImuWithMagneticField)
    (c : ImuConverter) (inData : IMUData) (q : List Imu) (qd : List ImuWithMagneticField)
    (h : c.syncMode = ImuSyncMethod.COPY) :
    (c.toRosMsg interpolate inData q =
      q ++ inData.packets.map (fun p =>
        c.CreateUnitMessage p.acceleroMeter p.gyroscope p.rotationVector p.magneticField Imu.zero
          p.acceleroMeter.timestamp)) ∧
    (c.toRosDaiMsg interpolateDai inData qd =
      qd ++ inData.packets.map (fun p =>
        c.CreateUnitMessageDai p.acceleroMeter p.gyroscope p.rotationVector p.magneticField
          ImuWithMagneticField.zero p.acceleroMeter.timestamp)) ∧
    (c.toRosMsg interpolate inData q).length = q.length + inData.packets.length ∧
    (c.toRosDaiMsg interpolateDai inData qd).length = qd.length + inData.packets.length ∧
    (c.toRosMsg interpolate inData q).take q.length = q ∧
    (c.toRosDaiMsg interpolateDai inData qd).take qd.length = qd ∧
    (∀ i p, inData.packets[i]? = some p →
      (c.toRosMsg interpolate inData q)[q.length + i]? =
        some (c.CreateUnitMessage p.acceleroMeter p.gyroscope p.rotationVector p.magneticField Imu.zero
          p.acceleroMeter.timestamp) ∧
      (c.toRosDaiMsg interpolateDai inData qd)[qd.length + i]? =
        some (c.CreateUnitMessageDai p.acceleroMeter p.gyroscope p.rotationVector p.magneticField
          ImuWithMagneticField.zero p.acceleroMeter.timestamp)) ∧
    (inData.packets = [] →
      c.toRosMsg interpolate inData q = q ∧ c.toRosDaiMsg interpolateDai inData qd = qd ∧
      c.toRosMsg interpolate inData [] = [] ∧ c.toRosDaiMsg interpolateDai inData [] = []) := by
  have e1 : ∀ out, c.toRosMsg interpolate inData out =
      out ++ inData.packets.map (fun p =>
        c.CreateUnitMessage p.acceleroMeter p.gyroscope p.rotationVector p.magneticField Imu.zero
          p.acceleroMeter.timestamp) := by
    intro out
    unfold ImuConverter.toRosMsg
    rw [if_neg (by simp [h]), ImuConverter.toRosMsgLoop_eq c inData.packets _ 0 out rfl, List.drop_zero]
  have e2 : ∀ out, c.toRosDaiMsg interpolateDai inData out =
      out ++ inData.packets.map (fun p =>
        c.CreateUnitMessageDai p.acceleroMeter p.gyroscope p.rotationVector p.magneticField
          ImuWithMagneticField.zero p.acceleroMeter.timestamp) := by
    intro out
    unfold ImuConverter.toRosDaiMsg
    rw [if_neg (by simp [h]), ImuConverter.toRosDaiMsgLoop_eq c inData.packets _ 0 out rfl, List.drop_zero]
  refine ⟨e1 q, e2 qd, ?_, ?_, ?_, ?_, ?_, ?_⟩
  · rw [e1]
    simp
  · rw [e2]
    simp
  · rw [e1]
    simp
  · rw [e2]
    simp
  · intro i p hp
    rw [e1, e2]
    constructor
    · rw [List.getElem?_append_right (by omega)]
      simp [hp]
    · rw [List.getElem?_append_right (by omega)]
      simp [hp]
  · intro hnil
    simp [e1, e2, hnil]

/-- C5, at a concrete input: two packets after one record already there. -/
theorem toRosMsg_copy_appends_in_order_witness :
    sampleImuConverter.syncMode = ImuSyncMethod.COPY ∧
    (sampleImuConverter.toRosMsg (fun _ out => out) ⟨samplePackets⟩ [Imu.zero]).length = 3 ∧
    (sampleImuConverter.toRosMsg (fun _ out => out) ⟨samplePackets⟩ [Imu.zero]).take 1 = [Imu.zero] :=
  ⟨rfl,
    (toRosMsg_copy_appends_in_order (fun _ out => out) (fun _ out => out) sampleImuConverter
      ⟨samplePackets⟩ [Imu.zero] [] rfl).2.2.1,
    (toRosMsg_copy_appends_in_order (fun _ out => out) (fun _ out => out) sampleImuConverter
      ⟨samplePackets⟩ [Imu.zero] [] rfl).2.2.2.2.1⟩

/-! ## Theorems: DisparityConverter -/

theorem transformRaw16_isSome (l : List Int) (h : ∀ d ∈ l, -32 < d) : ∃ vs, transformRaw16 l = some vs := by
  induction l with
  | nil => exact ⟨[], rfl⟩
  | cons d rest ih =>
    obtain ⟨vs, hvs⟩ := ih (fun x hx => h x (List.mem_cons_of_mem _ hx))
    have hd : -32 < d := h d (List.mem_cons_self _ _)
    have hv : disparityOfRaw16 d = some (((Int.tdiv d 32).toNat : Nat) : ℚ) := by
      unfold disparityOfRaw16
      rw [if_neg (by omega)]
    refine ⟨(((Int.tdiv d 32).toNat : Nat) : ℚ) :: vs, ?_⟩
    unfold transformRaw16
    rw [hv, hvs]

/-- The record that `toRosMsg` appends does not depend on the sequence it is
appended to. -/
theorem DisparityConverter.toRosMsg_defined (c : DisparityConverter) (f : ImgFrame) (hdef : f.defined) :
    ∃ r, ∀ q, c.toRosMsg f q = some (q ++ [r]) := by
  obtain ⟨hh, hraw⟩ := hdef
  by_cases ht : f.type = ImgFrameType.RAW8
  · unfold DisparityConverter.toRosMsg
    simp only [if_pos ht, if_neg hh]
    exact ⟨_, fun q => rfl⟩
  · obtain ⟨hlen, hpos⟩ := hraw ht
    obtain ⟨vs, hvs⟩ := transformRaw16_isSome _ hpos
    unfold DisparityConverter.toRosMsg
    simp only [if_neg ht, if_neg hh, raw16Data, if_pos hlen, hvs]
    exact ⟨_, fun q => rfl⟩

theorem DisparityConverter.toRosMsg_fields {c : DisparityConverter} {f : ImgFrame} {q out : List DisparityImage}
    (h : c.toRosMsg f q = some out) :
    ∃ r, out = q ++ [r] ∧ r.T = c.baseline / 100 ∧
      r.min_disparity = c.focalLength * c.baseline / c.maxDepth ∧
      r.max_disparity = c.focalLength * c.baseline / c.minDepth := by
  unfold DisparityConverter.toRosMsg at h
  simp only at h
  split at h
  · split at h
    · cases h
    · injection h with h
      exact ⟨_, h.symm, rfl, rfl, rfl⟩
  · split at h
    · cases h
    · split at h
      · cases h
      · split at h
        · cases h
        · injection h with h
          exact ⟨_, h.symm, rfl, rfl, rfl⟩

/-- The field `T` of every record of a converter constructed with a baseline
of `b` centimetres is `b / 100 / 100`, while the disparities are computed
with `b / 100`. -/
theorem DisparityConverter.toRosMsg_T_of_construct (frameName : String)
    (focalLength baseline minDepth maxDepth : ℚ) (getBaseDeviceTimestamp : Bool) (rosNow : Time)
    (steadyNow : Int) (f : ImgFrame) (q out : List DisparityImage)
    (h : (DisparityConverter.construct frameName focalLength baseline minDepth maxDepth
      getBaseDeviceTimestamp rosNow steadyNow).toRosMsg f q = some out) :
    ∃ r, out = q ++ [r] ∧ r.T = baseline / 100 / 100 ∧
      r.min_disparity = focalLength * (baseline / 100) / (maxDepth / 100) ∧
      r.max_disparity = focalLength * (baseline / 100) / (minDepth / 100) := by
  obtain ⟨r, h1, h2, h3, h4⟩ := DisparityConverter.toRosMsg_fields h
  exact ⟨r, h1, h2, h3, h4⟩

/-- C9, at the failing input: a converter constructed with a baseline of
7.5 cm emits `T = 0.00075`, which is 7.5 / 10000 and not 7.5 / 100 = 0.075
metres; the disparities are computed with the baseline 0.075. -/
theorem toRosMsg_T_is_baseline_over_10000 :
    (sampleDisparityConverter.toRosMsg sampleFrameRaw8 []).map (fun q => q.map (fun r => r.T)) =
      some [3 / 4000] ∧
    (3 / 4000 : ℚ) = 15 / 2 / 10000 ∧
    (3 / 4000 : ℚ) ≠ 15 / 2 / 100 ∧
    (sampleDisparityConverter.toRosMsg sampleFrameRaw8 []).map (fun q => q.map (fun r => r.min_disparity)) =
      some [880 * (15 / 2 / 100) / (1100 / 100)] ∧
    (sampleDisparityConverter.toRosMsg sampleFrameRaw8 []).map (fun q => q.map (fun r => r.max_disparity)) =
      some [880 * (15 / 2 / 100) / (80 / 100)] := by
  refine ⟨?_, by norm_num, by norm_num, ?_, ?_⟩
  · simp [DisparityConverter.toRosMsg, sampleDisparityConverter, DisparityConverter.construct,
      sampleFrameRaw8]
    norm_num
  · simp [DisparityConverter.toRosMsg, sampleDisparityConverter, DisparityConverter.construct,
      sampleFrameRaw8]
  · simp [DisparityConverter.toRosMsg, sampleDisparityConverter, DisparityConverter.construct,
      sampleFrameRaw8]

theorem disparityOfRaw16_eq_floor (d : Int) (h0 : 0 ≤ d) :
    disparityOfRaw16 d = some (((d / 32).toNat : Nat) : ℚ) := by
  unfold disparityOfRaw16
  rw [if_neg (by omega), Int.tdiv_eq_ediv h0 (by decide)]

/-- C10, at the failing input: in the 16-bit branch the raw value 33 gives the
pixel 1, not 33 / 32 = 1.03125, while `delta_d` is 1 / 32; the lambda returns
`std::size_t`, so the quotient loses its fractional part. -/
theorem toRosMsg_raw16_pixel_loses_fraction :
    (sampleDisparityConverter.toRosMsg sampleFrameRaw16 []).map
        (fun q => q.map (fun r => (r.image.data, r.delta_d))) = some [([1], 1 / 32)] ∧
    disparityOfRaw16 33 = some 1 ∧
    (1 : ℚ) ≠ 33 / 32 := by
  refine ⟨?_, ?_, by norm_num⟩
  · simp [DisparityConverter.toRosMsg, sampleDisparityConverter, DisparityConverter.construct,
      sampleFrameRaw16, raw16Data, U32, int16sOfBytes, int16OfBytes, transformRaw16, disparityOfRaw16]
    decide
  · simp [disparityOfRaw16]
    decide

end dai.ros
